import Mathlib

/-!
Shallow embedding of the `json_io` crate (`src/lib.rs`): two thin wrappers
(`load`, `save`) around a JSON codec, persisting values to `.json` files.

Strings are modelled as lists of unicode scalar values (`Str`), file
contents as lists of bytes (`Bytes`), and paths as lists of scalar values
(`Path`, a single file-name component, which is all the claims exercise).
The filesystem is an explicit oracle (`FS`) giving each path an open
result and a create result; `save` threads the filesystem state.

The external JSON codecs (`serde_json` for the `serde` module,
`rustc_serialize::json` for the `rustc_serialize` module) are opaque
collaborators of the crate, so they are modelled as structures of
functions the two modules are parametrised by, exactly mirroring the
trait bounds of the source.  `std::str::from_utf8` and
`String::as_bytes`, in contrast, have fixed library semantics, so they
are embedded concretely as a validating UTF-8 decoder and encoder.
-/

namespace JsonIo

/-- Unicode text: a list of unicode scalar values. -/
abbrev Str := List Nat

/-- Raw file contents: a list of bytes. -/
abbrev Bytes := List Nat

/-- A filesystem path, modelled as a single file-name component. -/
abbrev Path := List Nat

/-- The scalar value of `.` -/
def dotChar : Nat := 46

/-- The extension string `json`. -/
def jsonExt : Str := [106, 115, 111, 110]

/-- `std::path::Path::file_stem` / `extension` for a single file-name
component: the stem is everything before the last `.`, except that a name
with no `.`, or whose only `.` is the leading character, is all stem and
has no extension. -/
def fileStemExt (name : Path) : Path × Option Str :=
  match (name.reverse.dropWhile (· != dotChar)) with
  | [] => (name, none)
  | _ :: stemRev =>
    if stemRev = [] then (name, none)
    else (stemRev.reverse, some ((name.reverse.takeWhile (· != dotChar)).reverse))

/-- `std::path::Path::with_extension` (for a nonempty new extension):
replace the extension, i.e. keep the file stem and append `.` and the new
extension. -/
def withExtension (name : Path) (ext : Str) : Path :=
  (fileStemExt name).1 ++ dotChar :: ext

/-- The subset of `std::io::ErrorKind` the library inspects. -/
inductive IoErrorKind where
  | notFound
  | permissionDenied
  | other
deriving DecidableEq, Repr

/-- Result of `std::fs::File::open` followed by `read_to_end`: either the
full contents of the file, or a failure with its kind. -/
inductive OpenResult where
  | found (contents : Bytes)
  | failure (k : IoErrorKind)
deriving DecidableEq, Repr

/-- The filesystem oracle: what opening each path yields, and whether
`File::create` at each path fails. -/
structure FS where
  openRes : Path → OpenResult
  createRes : Path → Option IoErrorKind

/-- Writing a file: subsequent opens of that path find the new contents. -/
def FS.write (fs : FS) (p : Path) (contents : Bytes) : FS :=
  { fs with openRes := fun q => if q = p then .found contents else fs.openRes q }

/-- A unicode scalar value: below the surrogate range, or above it and
below `0x110000`. -/
def ValidScalar (n : Nat) : Prop :=
  n < 0xD800 ∨ (0xE000 ≤ n ∧ n < 0x110000)

instance (n : Nat) : Decidable (ValidScalar n) := by
  unfold ValidScalar; infer_instance

/-- UTF-8 encoding of one unicode scalar value (`String::as_bytes`). -/
def utf8EncodeScalar (n : Nat) : Bytes :=
  if n < 0x80 then [n]
  else if n < 0x800 then [0xC0 + n / 64, 0x80 + n % 64]
  else if n < 0x10000 then [0xE0 + n / 4096, 0x80 + n / 64 % 64, 0x80 + n % 64]
  else [0xF0 + n / 262144, 0x80 + n / 4096 % 64, 0x80 + n / 64 % 64, 0x80 + n % 64]

/-- UTF-8 encoding of a string. -/
def utf8Encode : Str → Bytes
  | [] => []
  | n :: s => utf8EncodeScalar n ++ utf8Encode s

/-- Scalar value of a two-byte UTF-8 sequence, or `none` when the
continuation byte is out of range. -/
def twoVal (b b1 : Nat) : Option Nat :=
  if 0x80 ≤ b1 ∧ b1 < 0xC0 then some ((b - 0xC0) * 64 + (b1 - 0x80)) else none

/-- Scalar value of a three-byte UTF-8 sequence, or `none` when a
continuation byte is out of range.  The first continuation byte's allowed
range depends on the lead byte: `E0` forbids overlong forms, `ED` forbids
surrogates. -/
def threeVal (b b1 b2 : Nat) : Option Nat :=
  if (if b = 0xE0 then 0xA0 ≤ b1 ∧ b1 < 0xC0
      else if b = 0xED then 0x80 ≤ b1 ∧ b1 < 0xA0
      else 0x80 ≤ b1 ∧ b1 < 0xC0) ∧ 0x80 ≤ b2 ∧ b2 < 0xC0 then
    some ((b - 0xE0) * 4096 + (b1 - 0x80) * 64 + (b2 - 0x80))
  else none

/-- Scalar value of a four-byte UTF-8 sequence, or `none` when a
continuation byte is out of range.  `F0` forbids overlong forms, `F4`
forbids values above `0x10FFFF`. -/
def fourVal (b b1 b2 b3 : Nat) : Option Nat :=
  if (if b = 0xF0 then 0x90 ≤ b1 ∧ b1 < 0xC0
      else if b = 0xF4 then 0x80 ≤ b1 ∧ b1 < 0x90
      else 0x80 ≤ b1 ∧ b1 < 0xC0) ∧ 0x80 ≤ b2 ∧ b2 < 0xC0 ∧ 0x80 ≤ b3 ∧ b3 < 0xC0 then
    some ((b - 0xF0) * 262144 + (b1 - 0x80) * 4096 + (b2 - 0x80) * 64 + (b3 - 0x80))
  else none

/-- Decode a two-byte sequence headed by lead byte `b`, continuing with
`rec` on the remaining bytes. -/
def utf8Two (rec : Bytes → Option Str) (b : Nat) : Bytes → Option Str
  | b1 :: l2 =>
    match twoVal b b1 with
    | some n => Option.map (List.cons n) (rec l2)
    | none => none
  | [] => none

/-- Decode a three-byte sequence headed by lead byte `b`. -/
def utf8Three (rec : Bytes → Option Str) (b : Nat) : Bytes → Option Str
  | b1 :: b2 :: l2 =>
    match threeVal b b1 b2 with
    | some n => Option.map (List.cons n) (rec l2)
    | none => none
  | _ => none

/-- Decode a four-byte sequence headed by lead byte `b`. -/
def utf8Four (rec : Bytes → Option Str) (b : Nat) : Bytes → Option Str
  | b1 :: b2 :: b3 :: l2 =>
    match fourVal b b1 b2 b3 with
    | some n => Option.map (List.cons n) (rec l2)
    | none => none
  | _ => none

/-- UTF-8 decoding worker, structurally recursive on a fuel bound (any
fuel at least the length of the input gives the decoder's value). -/
def utf8DecodeGo : Nat → Bytes → Option Str
  | _, [] => some []
  | 0, _ :: _ => none
  | fuel + 1, b :: l =>
    if b < 0x80 then Option.map (List.cons b) (utf8DecodeGo fuel l)
    else if b < 0xC2 then none
    else if b < 0xE0 then utf8Two (utf8DecodeGo fuel) b l
    else if b < 0xF0 then utf8Three (utf8DecodeGo fuel) b l
    else if b < 0xF5 then utf8Four (utf8DecodeGo fuel) b l
    else none

/-- Validating UTF-8 decoding (`std::str::from_utf8`): rejects stray
continuation bytes, overlong forms, surrogates and values above
`0x10FFFF`, following the standard lead-byte/continuation table. -/
def utf8Decode (l : Bytes) : Option Str := utf8DecodeGo l.length l

/-- The observable result of a call: a value, an error value, or a panic
(process abort, as produced by `.unwrap()`). -/
inductive Outcome (ε : Type) (α : Type) where
  | ok (a : α)
  | err (e : ε)
  | panic
deriving DecidableEq, Repr

/-! ## The `serde` module (`src/lib.rs`, `mod serde`) -/

namespace serde

/-- The external `serde_json` codec at a type `T` with error type `E`:
`serde_json::from_str` (parse + deserialize in one step, one error type)
and `serde_json::to_string`.  The crate is generic over any such `T`. -/
structure Codec (T : Type) (E : Type) where
  from_str : JsonIo.Str → Except E T
  to_string : T → Except E JsonIo.Str

/-- `serde::Error`: the three-case error union of the serde module. -/
inductive Error (E : Type) where
  | Io (err : JsonIo.IoErrorKind)
  | Utf8
  | Json (err : E)
deriving DecidableEq, Repr

/-- Constructor index of a `serde::Error`: which case of the tagged union
an error value belongs to. -/
def errCase {E : Type} : Error E → Nat
  | .Io _ => 0
  | .Utf8 => 1
  | .Json _ => 2

/-- The open logic of `serde::load` (lines 85-92): open the exact path;
if that fails with `NotFound`, open the path with its extension set to
`json`; surface any other failure (and any failure of the second open). -/
def openChosen (fs : JsonIo.FS) (path : JsonIo.Path) : Except JsonIo.IoErrorKind JsonIo.Bytes :=
  match fs.openRes path with
  | .found file => .ok file
  | .failure .notFound =>
    match fs.openRes (JsonIo.withExtension path JsonIo.jsonExt) with
    | .found file => .ok file
    | .failure k => .error k
  | .failure k => .error k

/-- The tail of `serde::load` (lines 93-97), from the file contents on:
interpret the bytes as UTF-8, then `serde_json::from_str`. -/
def afterOpen {T E : Type} (c : Codec T E) (contents : JsonIo.Bytes) : Outcome (Error E) T :=
  match JsonIo.utf8Decode contents with
  | none => .err .Utf8
  | some json_str =>
    match c.from_str json_str with
    | .error e => .err (.Json e)
    | .ok t => .ok t

/-- `serde::load` (lines 80-98). -/
def load {T E : Type} (c : Codec T E) (fs : JsonIo.FS) (path : JsonIo.Path) :
    Outcome (Error E) T :=
  match openChosen fs path with
  | .error k => .err (.Io k)
  | .ok contents => afterOpen c contents

/-- `serde::save` (lines 103-112): encode first, then create the file at
the path with its extension forced to `json`, then write the encoded
text's bytes.  Returns the outcome together with the filesystem state. -/
def save {T E : Type} (c : Codec T E) (fs : JsonIo.FS) (path : JsonIo.Path) (t : T) :
    Outcome (Error E) Unit × JsonIo.FS :=
  match c.to_string t with
  | .error e => (.err (.Json e), fs)
  | .ok json_string =>
    match fs.createRes (JsonIo.withExtension path JsonIo.jsonExt) with
    | some k => (.err (.Io k), fs)
    | none =>
      (.ok (), fs.write (JsonIo.withExtension path JsonIo.jsonExt)
        (JsonIo.utf8Encode json_string))

end serde

/-! ## The `rustc_serialize` module (`src/lib.rs`, `mod rustc_serialize`) -/

namespace rustc_serialize

/-- The external `rustc_serialize::json` codec at a type `T`:
`json::Json::from_str` (parse, yielding a JSON value of type `J`),
`T::decode` run on a `json::Decoder` (decode a JSON value), and
`json::encode`, with their three separate error types. -/
structure Codec (T J PE DE EE : Type) where
  from_str : JsonIo.Str → Except PE J
  decode : J → Except DE T
  encode : T → Except EE JsonIo.Str

/-- `rustc_serialize::Error`: the four-case error union of the
rustc-serialize module (no UTF-8 case exists). -/
inductive Error (PE DE EE : Type) where
  | Io (err : JsonIo.IoErrorKind)
  | JsonParserError (err : PE)
  | JsonDecoderError (err : DE)
  | JsonEncoderError (err : EE)
deriving DecidableEq, Repr

/-- Constructor index of a `rustc_serialize::Error`. -/
def errCase {PE DE EE : Type} : Error PE DE EE → Nat
  | .Io _ => 0
  | .JsonParserError _ => 1
  | .JsonDecoderError _ => 2
  | .JsonEncoderError _ => 3

/-- The open logic of `rustc_serialize::load` (lines 189-196), identical
in structure to the serde module's. -/
def openChosen (fs : JsonIo.FS) (path : JsonIo.Path) : Except JsonIo.IoErrorKind JsonIo.Bytes :=
  match fs.openRes path with
  | .found file => .ok file
  | .failure .notFound =>
    match fs.openRes (JsonIo.withExtension path JsonIo.jsonExt) with
    | .found file => .ok file
    | .failure k => .error k
  | .failure k => .error k

/-- The tail of `rustc_serialize::load` (lines 197-202):
`std::str::from_utf8(..).unwrap()` — a panic when the bytes are not valid
UTF-8 — then `json::Json::from_str`, then `T::decode`. -/
def afterOpen {T J PE DE EE : Type} (c : Codec T J PE DE EE) (contents : JsonIo.Bytes) :
    Outcome (Error PE DE EE) T :=
  match JsonIo.utf8Decode contents with
  | none => .panic
  | some s =>
    match c.from_str s with
    | .error e => .err (.JsonParserError e)
    | .ok json_object =>
      match c.decode json_object with
      | .error e => .err (.JsonDecoderError e)
      | .ok t => .ok t

/-- `rustc_serialize::load` (lines 188-203). -/
def load {T J PE DE EE : Type} (c : Codec T J PE DE EE) (fs : JsonIo.FS)
    (path : JsonIo.Path) : Outcome (Error PE DE EE) T :=
  match openChosen fs path with
  | .error k => .err (.Io k)
  | .ok contents => afterOpen c contents

/-- `rustc_serialize::save` (lines 209-213): encode first, then create
the `.json`-extension file, then write. -/
def save {T J PE DE EE : Type} (c : Codec T J PE DE EE) (fs : JsonIo.FS)
    (path : JsonIo.Path) (t : T) : Outcome (Error PE DE EE) Unit × JsonIo.FS :=
  match c.encode t with
  | .error e => (.err (.JsonEncoderError e), fs)
  | .ok json_string =>
    match fs.createRes (JsonIo.withExtension path JsonIo.jsonExt) with
    | some k => (.err (.Io k), fs)
    | none =>
      (.ok (), fs.write (JsonIo.withExtension path JsonIo.jsonExt)
        (JsonIo.utf8Encode json_string))

end rustc_serialize

/-! ## Concrete instantiations and fixtures

The crate is generic over the external codec; the following small
instances (values are the one-digit numbers `1`-`9`) serve only to
instantiate the generic theorems at concrete inputs.  The text `[1]`
(bytes `91, 49, 93`) plays the role of well-formed JSON of the wrong
shape; other non-digit text is a syntax error; `0` is a value whose
encoding fails (as `serde_json` encoding can). -/

/-- A small instance of the `serde_json` codec interface at `T = Nat`,
with error codes as the opaque `serde_json` error payloads. -/
def toySerde : serde.Codec Nat Nat where
  from_str s :=
    if s = [91, 49, 93] then .error 2
    else
      match s with
      | [d] => if 49 ≤ d ∧ d ≤ 57 then .ok (d - 48) else .error 1
      | _ => .error 1
  to_string n := if n = 0 then .error 0 else if n < 10 then .ok [48 + n] else .error 3

/-- A small JSON value type for the `rustc_serialize` codec instance. -/
inductive ToyJson where
  | num (n : Nat)
  | arr
deriving DecidableEq, Repr

/-- A small instance of the `rustc_serialize::json` codec interface at
`T = Nat`. -/
def toyRustc : rustc_serialize.Codec Nat ToyJson Nat Nat Nat where
  from_str s :=
    if s = [91, 49, 93] then .ok .arr
    else
      match s with
      | [d] => if 49 ≤ d ∧ d ≤ 57 then .ok (.num (d - 48)) else .error 11
      | _ => .error 11
  decode j :=
    match j with
    | .num n => .ok n
    | .arr => .error 21
  encode n := if n = 0 then .error 31 else if n < 10 then .ok [48 + n] else .error 32

/-- The path `data`. -/
def dataPath : Path := [100, 97, 116, 97]

/-- The path `data.json`. -/
def dataJsonPath : Path := [100, 97, 116, 97, 46, 106, 115, 111, 110]

/-- The path `data.txt`. -/
def dataTxtPath : Path := [100, 97, 116, 97, 46, 116, 120, 116]

/-- The path `missing`. -/
def missingPath : Path := [109, 105, 115, 115, 105, 110, 103]

/-- An empty filesystem: every open fails with not-found, creates succeed. -/
def fsEmpty : FS := ⟨fun _ => .failure .notFound, fun _ => none⟩

/-- Only `data.json` exists; it contains the text `2`. -/
def fsOnlyJson : FS :=
  ⟨fun q => if q = dataJsonPath then .found [50] else .failure .notFound, fun _ => none⟩

/-- Both `data` (text `1`) and `data.json` (text `2`) exist. -/
def fsBoth : FS :=
  ⟨fun q =>
    if q = dataPath then .found [49]
    else if q = dataJsonPath then .found [50]
    else .failure .notFound,
   fun _ => none⟩

/-- `data` exists but holds the single byte `0xFF`, which is not valid
UTF-8. -/
def fsBadUtf8 : FS :=
  ⟨fun q => if q = dataPath then .found [255] else .failure .notFound, fun _ => none⟩

/-- `data` holds the malformed JSON text `{invalid`. -/
def fsParseBad : FS :=
  ⟨fun q =>
    if q = dataPath then .found [123, 105, 110, 118, 97, 108, 105, 100]
    else .failure .notFound,
   fun _ => none⟩

/-- `data` holds the well-formed JSON text `[1]`, whose shape does not
match the target type. -/
def fsShapeBad : FS :=
  ⟨fun q => if q = dataPath then .found [91, 49, 93] else .failure .notFound, fun _ => none⟩

/-- Opening `data` fails with a permission error; everything else is
missing. -/
def fsDenied : FS :=
  ⟨fun q =>
    if q = dataPath then .failure .permissionDenied else .failure .notFound,
   fun _ => none⟩

/-! ## Helper lemmas -/

lemma FS.write_openRes_self (fs : FS) (p : Path) (c : Bytes) :
    (fs.write p c).openRes p = .found c := by
  simp [FS.write]

lemma FS.write_openRes_ne (fs : FS) (p : Path) (c : Bytes) (q : Path) (h : q ≠ p) :
    (fs.write p c).openRes q = fs.openRes q := by
  simp [FS.write, h]

/-- The UTF-8 decoding worker does not depend on the fuel, as long as the
fuel is at least the length of the input. -/
lemma utf8DecodeGo_congr (k : Nat) : ∀ (l : Bytes) (fuel fuel' : Nat), l.length ≤ k →
    l.length ≤ fuel → l.length ≤ fuel' → utf8DecodeGo fuel l = utf8DecodeGo fuel' l := by
  induction k with
  | zero =>
    intro l fuel fuel' hk _ _
    have : l = [] := List.length_eq_zero.mp (Nat.le_zero.mp hk)
    subst this
    rw [utf8DecodeGo.eq_1, utf8DecodeGo.eq_1]
  | succ k ih =>
    intro l fuel fuel' hk hf hf'
    cases l with
    | nil => rw [utf8DecodeGo.eq_1, utf8DecodeGo.eq_1]
    | cons b l1 =>
      simp only [List.length_cons] at hk hf hf'
      obtain ⟨f, rfl⟩ : ∃ f, fuel = f + 1 := ⟨fuel - 1, by omega⟩
      obtain ⟨f2, rfl⟩ : ∃ f2, fuel' = f2 + 1 := ⟨fuel' - 1, by omega⟩
      rw [utf8DecodeGo.eq_3, utf8DecodeGo.eq_3]
      by_cases h1 : b < 0x80
      · rw [if_pos h1, if_pos h1, ih l1 f f2 (by omega) (by omega) (by omega)]
      · rw [if_neg h1, if_neg h1]
        by_cases h2 : b < 0xC2
        · rw [if_pos h2, if_pos h2]
        · rw [if_neg h2, if_neg h2]
          by_cases h3 : b < 0xE0
          · rw [if_pos h3, if_pos h3]
            cases l1 with
            | nil => rfl
            | cons b1 l2 =>
              simp only [List.length_cons] at hk hf hf'
              rw [utf8Two, utf8Two]
              cases htv : twoVal b b1 with
              | none => rfl
              | some n => rw [ih l2 f f2 (by omega) (by omega) (by omega)]
          · rw [if_neg h3, if_neg h3]
            by_cases h4 : b < 0xF0
            · rw [if_pos h4, if_pos h4]
              match l1 with
              | [] => rfl
              | [b1] => rfl
              | b1 :: b2 :: l2 =>
                simp only [List.length_cons] at hk hf hf'
                rw [utf8Three, utf8Three]
                cases htv : threeVal b b1 b2 with
                | none => rfl
                | some n => rw [ih l2 f f2 (by omega) (by omega) (by omega)]
            · rw [if_neg h4, if_neg h4]
              by_cases h5 : b < 0xF5
              · rw [if_pos h5, if_pos h5]
                match l1 with
                | [] => rfl
                | [b1] => rfl
                | [b1, b2] => rfl
                | b1 :: b2 :: b3 :: l2 =>
                  simp only [List.length_cons] at hk hf hf'
                  rw [utf8Four, utf8Four]
                  cases htv : fourVal b b1 b2 b3 with
                  | none => rfl
                  | some n => rw [ih l2 f f2 (by omega) (by omega) (by omega)]
              · rw [if_neg h5, if_neg h5]

/-- Any sufficient fuel computes `utf8Decode`. -/
lemma utf8DecodeGo_fuel (fuel : Nat) (l : Bytes) (h : l.length ≤ fuel) :
    utf8DecodeGo fuel l = utf8DecodeGo l.length l :=
  utf8DecodeGo_congr l.length l fuel l.length le_rfl h le_rfl

/-- `twoVal` recovers the scalar from the two encoded bytes. -/
lemma twoVal_encode (n : Nat) (h1 : 0x80 ≤ n) (h2 : n < 0x800) :
    twoVal (0xC0 + n / 64) (0x80 + n % 64) = some n := by
  unfold twoVal
  rw [if_pos (by omega)]
  simp only [Option.some.injEq]
  omega

/-- `threeVal` recovers the scalar from the three encoded bytes. -/
lemma threeVal_encode (n : Nat) (h2 : 0x800 ≤ n) (h3 : n < 0x10000)
    (hval : n < 0xD800 ∨ 0xE000 ≤ n) :
    threeVal (0xE0 + n / 4096) (0x80 + n / 64 % 64) (0x80 + n % 64) = some n := by
  unfold threeVal
  split_ifs <;>
    first
    | (simp only [Option.some.injEq]; omega)
    | (exfalso; omega)

/-- `fourVal` recovers the scalar from the four encoded bytes. -/
lemma fourVal_encode (n : Nat) (h3 : 0x10000 ≤ n) (h4 : n < 0x110000) :
    fourVal (0xF0 + n / 262144) (0x80 + n / 4096 % 64) (0x80 + n / 64 % 64) (0x80 + n % 64) =
      some n := by
  unfold fourVal
  split_ifs <;>
    first
    | (simp only [Option.some.injEq]; omega)
    | (exfalso; omega)

/-- Decoding the UTF-8 encoding of one valid scalar value, followed by any
byte tail, yields that scalar followed by the decoding of the tail. -/
lemma utf8Decode_scalar_append (n : Nat) (hn : ValidScalar n) (l : Bytes) :
    utf8Decode (utf8EncodeScalar n ++ l) = Option.map (List.cons n) (utf8Decode l) := by
  by_cases h1 : n < 0x80
  · have he : utf8EncodeScalar n = [n] := by
      unfold utf8EncodeScalar; rw [if_pos h1]
    rw [he]
    simp only [utf8Decode, List.cons_append, List.nil_append, List.length_cons]
    rw [utf8DecodeGo.eq_3, if_pos h1]
  · by_cases h2 : n < 0x800
    · have he : utf8EncodeScalar n = [0xC0 + n / 64, 0x80 + n % 64] := by
        unfold utf8EncodeScalar; rw [if_neg h1, if_pos h2]
      rw [he]
      simp only [utf8Decode, List.cons_append, List.nil_append, List.length_cons]
      rw [utf8DecodeGo.eq_3, if_neg (by omega), if_neg (by omega), if_pos (by omega)]
      rw [utf8Two, twoVal_encode n (by omega) h2]
      show Option.map (List.cons n) (utf8DecodeGo (l.length + 1) l) = _
      rw [utf8DecodeGo_fuel (l.length + 1) l (by omega)]
    · by_cases h3 : n < 0x10000
      · have he : utf8EncodeScalar n = [0xE0 + n / 4096, 0x80 + n / 64 % 64, 0x80 + n % 64] := by
          unfold utf8EncodeScalar; rw [if_neg h1, if_neg h2, if_pos h3]
        rw [he]
        simp only [utf8Decode, List.cons_append, List.nil_append, List.length_cons]
        rw [utf8DecodeGo.eq_3, if_neg (by omega), if_neg (by omega), if_neg (by omega),
          if_pos (by omega)]
        rw [utf8Three, threeVal_encode n (by omega) h3 (by rcases hn with h | h <;> omega)]
        show Option.map (List.cons n) (utf8DecodeGo (l.length + 1 + 1) l) = _
        rw [utf8DecodeGo_fuel (l.length + 1 + 1) l (by omega)]
      · have hup : n < 0x110000 := by
          rcases hn with h | h <;> omega
        have he : utf8EncodeScalar n =
            [0xF0 + n / 262144, 0x80 + n / 4096 % 64, 0x80 + n / 64 % 64, 0x80 + n % 64] := by
          unfold utf8EncodeScalar; rw [if_neg h1, if_neg h2, if_neg h3]
        rw [he]
        simp only [utf8Decode, List.cons_append, List.nil_append, List.length_cons]
        rw [utf8DecodeGo.eq_3, if_neg (by omega), if_neg (by omega), if_neg (by omega),
          if_neg (by omega), if_pos (by omega)]
        rw [utf8Four, fourVal_encode n (by omega) hup]
        show Option.map (List.cons n) (utf8DecodeGo (l.length + 1 + 1 + 1) l) = _
        rw [utf8DecodeGo_fuel (l.length + 1 + 1 + 1) l (by omega)]

/-- UTF-8 round trip: decoding the encoding of any string of valid scalar
values gives the string back (`from_utf8(s.as_bytes()) == Ok(s)`). -/
lemma utf8Decode_utf8Encode (s : Str) (h : ∀ n ∈ s, ValidScalar n) :
    utf8Decode (utf8Encode s) = some s := by
  induction s with
  | nil => rfl
  | cons n s ih =>
    rw [utf8Encode, utf8Decode_scalar_append n (h n (by simp)) (utf8Encode s),
      ih (fun m hm => h m (by simp [hm]))]
    rfl

lemma dropWhile_append_all {p : Nat → Bool} (l1 l2 : List Nat) (h : ∀ a ∈ l1, p a = true) :
    (l1 ++ l2).dropWhile p = l2.dropWhile p := by
  induction l1 with
  | nil => rfl
  | cons a l1 ih =>
    rw [List.cons_append, List.dropWhile_cons_of_pos (h a (by simp))]
    exact ih (fun a ha => h a (by simp [ha]))

/-- `with_extension` replaces an existing extension: on a name of the form
`stem.ext` (with a nonempty stem and no dot in `ext`), the result is
`stem.newExt`, not `stem.ext.newExt`. -/
lemma withExtension_replace (stem ext newExt : Str) (hstem : stem ≠ [])
    (hext : dotChar ∉ ext) :
    withExtension (stem ++ dotChar :: ext) newExt = stem ++ dotChar :: newExt := by
  unfold withExtension fileStemExt
  have h1 : (stem ++ dotChar :: ext).reverse = ext.reverse ++ dotChar :: stem.reverse := by
    simp
  rw [h1, dropWhile_append_all ext.reverse (dotChar :: stem.reverse)
    (fun a ha => by
      simp only [List.mem_reverse] at ha
      simp only [bne_iff_ne, ne_eq]
      exact fun heq => hext (heq ▸ ha)),
    List.dropWhile_cons_of_neg (by simp)]
  show (if stem.reverse = [] then _ else (stem.reverse.reverse, _)).1 ++ _ = _
  rw [if_neg (by simpa using hstem)]
  simp

/-! ### Characterisations of the open logic and the read pipeline -/

lemma serde.openChosen_found (fs : FS) (p : Path) (f : Bytes)
    (h : fs.openRes p = .found f) : serde.openChosen fs p = .ok f := by
  unfold serde.openChosen
  rw [h]

lemma serde.openChosen_fallback_found (fs : FS) (p : Path) (f : Bytes)
    (h1 : fs.openRes p = .failure .notFound)
    (h2 : fs.openRes (withExtension p jsonExt) = .found f) :
    serde.openChosen fs p = .ok f := by
  unfold serde.openChosen
  rw [h1, h2]

lemma serde.openChosen_fallback_failure (fs : FS) (p : Path) (k : IoErrorKind)
    (h1 : fs.openRes p = .failure .notFound)
    (h2 : fs.openRes (withExtension p jsonExt) = .failure k) :
    serde.openChosen fs p = .error k := by
  unfold serde.openChosen
  rw [h1, h2]

lemma serde.openChosen_other (fs : FS) (p : Path) (k : IoErrorKind)
    (h : fs.openRes p = .failure k) (hk : k ≠ .notFound) :
    serde.openChosen fs p = .error k := by
  unfold serde.openChosen
  rw [h]
  cases k with
  | notFound => exact absurd rfl hk
  | permissionDenied => rfl
  | other => rfl

/-- The two modules' open logic is literally the same function. -/
lemma openChosen_same : @rustc_serialize.openChosen = @serde.openChosen := rfl

lemma serde.load_of_openChosen {T E : Type} (c : serde.Codec T E) (fs : FS) (p : Path)
    (f : Bytes) (h : serde.openChosen fs p = .ok f) :
    serde.load c fs p = serde.afterOpen c f := by
  unfold serde.load
  rw [h]

lemma serde.load_err_of_openChosen {T E : Type} (c : serde.Codec T E) (fs : FS) (p : Path)
    (k : IoErrorKind) (h : serde.openChosen fs p = .error k) :
    serde.load c fs p = .err (.Io k) := by
  unfold serde.load
  rw [h]

lemma rustc_serialize.rload_of_openChosen {T J PE DE EE : Type}
    (c : rustc_serialize.Codec T J PE DE EE) (fs : FS) (p : Path) (f : Bytes)
    (h : rustc_serialize.openChosen fs p = .ok f) :
    rustc_serialize.load c fs p = rustc_serialize.afterOpen c f := by
  unfold rustc_serialize.load
  rw [h]

lemma rustc_serialize.rload_err_of_openChosen {T J PE DE EE : Type}
    (c : rustc_serialize.Codec T J PE DE EE) (fs : FS) (p : Path) (k : IoErrorKind)
    (h : rustc_serialize.openChosen fs p = .error k) :
    rustc_serialize.load c fs p = .err (.Io k) := by
  unfold rustc_serialize.load
  rw [h]

lemma serde.afterOpen_utf8_err {T E : Type} (c : serde.Codec T E) (f : Bytes)
    (h : utf8Decode f = none) : serde.afterOpen c f = .err .Utf8 := by
  unfold serde.afterOpen
  rw [h]

lemma serde.afterOpen_json_err {T E : Type} (c : serde.Codec T E) (f : Bytes) (s : Str)
    (e : E) (hu : utf8Decode f = some s) (hp : c.from_str s = .error e) :
    serde.afterOpen c f = .err (.Json e) := by
  unfold serde.afterOpen
  simp only [hu, hp]

lemma serde.afterOpen_ok {T E : Type} (c : serde.Codec T E) (f : Bytes) (s : Str)
    (t : T) (hu : utf8Decode f = some s) (hp : c.from_str s = .ok t) :
    serde.afterOpen c f = .ok t := by
  unfold serde.afterOpen
  simp only [hu, hp]

lemma rustc_serialize.afterOpen_utf8_panic {T J PE DE EE : Type}
    (c : rustc_serialize.Codec T J PE DE EE) (f : Bytes)
    (h : utf8Decode f = none) : rustc_serialize.afterOpen c f = .panic := by
  unfold rustc_serialize.afterOpen
  rw [h]

lemma rustc_serialize.afterOpen_parse_err {T J PE DE EE : Type}
    (c : rustc_serialize.Codec T J PE DE EE) (f : Bytes) (s : Str) (e : PE)
    (hu : utf8Decode f = some s) (hp : c.from_str s = .error e) :
    rustc_serialize.afterOpen c f = .err (.JsonParserError e) := by
  unfold rustc_serialize.afterOpen
  simp only [hu, hp]

lemma rustc_serialize.afterOpen_decode_err {T J PE DE EE : Type}
    (c : rustc_serialize.Codec T J PE DE EE) (f : Bytes) (s : Str) (j : J) (e : DE)
    (hu : utf8Decode f = some s) (hp : c.from_str s = .ok j) (hd : c.decode j = .error e) :
    rustc_serialize.afterOpen c f = .err (.JsonDecoderError e) := by
  unfold rustc_serialize.afterOpen
  simp only [hu, hp, hd]

lemma rustc_serialize.rafterOpen_ok {T J PE DE EE : Type}
    (c : rustc_serialize.Codec T J PE DE EE) (f : Bytes) (s : Str) (j : J) (t : T)
    (hu : utf8Decode f = some s) (hp : c.from_str s = .ok j) (hd : c.decode j = .ok t) :
    rustc_serialize.afterOpen c f = .ok t := by
  unfold rustc_serialize.afterOpen
  simp only [hu, hp, hd]

lemma serde.save_encode_err {T E : Type} (c : serde.Codec T E) (fs : FS) (p : Path)
    (v : T) (e : E) (h : c.to_string v = .error e) :
    serde.save c fs p v = (.err (.Json e), fs) := by
  unfold serde.save
  rw [h]

lemma serde.save_ok {T E : Type} (c : serde.Codec T E) (fs : FS) (p : Path)
    (v : T) (s : Str) (h : c.to_string v = .ok s)
    (hc : fs.createRes (withExtension p jsonExt) = none) :
    serde.save c fs p v =
      (.ok (), fs.write (withExtension p jsonExt) (utf8Encode s)) := by
  unfold serde.save
  rw [h, hc]

lemma rustc_serialize.rsave_encode_err {T J PE DE EE : Type}
    (c : rustc_serialize.Codec T J PE DE EE) (fs : FS) (p : Path) (v : T) (e : EE)
    (h : c.encode v = .error e) :
    rustc_serialize.save c fs p v = (.err (.JsonEncoderError e), fs) := by
  unfold rustc_serialize.save
  rw [h]

lemma rustc_serialize.rsave_ok {T J PE DE EE : Type}
    (c : rustc_serialize.Codec T J PE DE EE) (fs : FS) (p : Path) (v : T) (s : Str)
    (h : c.encode v = .ok s) (hc : fs.createRes (withExtension p jsonExt) = none) :
    rustc_serialize.save c fs p v =
      (.ok (), fs.write (withExtension p jsonExt) (utf8Encode s)) := by
  unfold rustc_serialize.save
  rw [h, hc]

lemma serde.save_create_err {T E : Type} (c : serde.Codec T E) (fs : FS) (p : Path)
    (v : T) (s : Str) (k : IoErrorKind) (h : c.to_string v = .ok s)
    (hc : fs.createRes (withExtension p jsonExt) = some k) :
    serde.save c fs p v = (.err (.Io k), fs) := by
  unfold serde.save
  rw [h, hc]

lemma rustc_serialize.rsave_create_err {T J PE DE EE : Type}
    (c : rustc_serialize.Codec T J PE DE EE) (fs : FS) (p : Path) (v : T) (s : Str)
    (k : IoErrorKind) (h : c.encode v = .ok s)
    (hc : fs.createRes (withExtension p jsonExt) = some k) :
    rustc_serialize.save c fs p v = (.err (.Io k), fs) := by
  unfold rustc_serialize.save
  rw [h, hc]

/-- `FS.write` as an explicit update of the open oracle. -/
lemma FS.write_openRes (fs : FS) (p : Path) (c : Bytes) (q : Path) :
    (fs.write p c).openRes q = if q = p then .found c else fs.openRes q := rfl

/-! ## The claims -/

/-- C1: Round-trip — for every value `v` of a supported type (one the
codec encodes to a string `s` of valid scalars and decodes back to `v`)
and every valid path `p` (the file creation succeeds, and the exact path
either is the normalized `.json` path itself or has no pre-existing
file shadowing it), `save(p, v)` followed by `load(p)` succeeds and
yields `v`. -/
theorem C1_save_load_roundtrip {T E : Type} (c : serde.Codec T E) (v : T) (s : Str)
    (fs : FS) (p : Path)
    (henc : c.to_string v = .ok s)
    (hdec : c.from_str s = .ok v)
    (hval : ∀ n ∈ s, ValidScalar n)
    (hcreate : fs.createRes (withExtension p jsonExt) = none)
    (hfresh : p = withExtension p jsonExt ∨ fs.openRes p = .failure .notFound) :
    serde.load c (serde.save c fs p v).2 p = .ok v := by
  have hsave : (serde.save c fs p v).2 =
      fs.write (withExtension p jsonExt) (utf8Encode s) := by
    rw [serde.save_ok c fs p v s henc hcreate]
  have hopen : serde.openChosen (fs.write (withExtension p jsonExt) (utf8Encode s)) p =
      .ok (utf8Encode s) := by
    by_cases hp : p = withExtension p jsonExt
    · exact serde.openChosen_found _ p _ (by rw [FS.write_openRes, if_pos hp])
    · refine serde.openChosen_fallback_found _ p _ ?_ ?_
      · rw [FS.write_openRes, if_neg hp]
        exact hfresh.resolve_left hp
      · rw [FS.write_openRes, if_pos rfl]
  rw [hsave, serde.load_of_openChosen c _ p _ hopen]
  exact serde.afterOpen_ok c _ s v (utf8Decode_utf8Encode s hval) hdec

/-- Witness for C1 at the toy codec: saving `5` at path `data` on an
empty filesystem and loading `data` back yields `5`. -/
theorem C1_witness :
    serde.load toySerde (serde.save toySerde fsEmpty dataPath 5).2 dataPath = .ok 5 :=
  C1_save_load_roundtrip toySerde 5 [53] fsEmpty dataPath rfl rfl (by decide) rfl
    (Or.inr rfl)

/-- C2: Load path resolution — `load` uses the exact path when it opens;
exactly on a not-found failure it retries once at the path with its
extension set to `.json`; any other open failure is returned immediately
as an `Io` error; and when the exact path is missing but the
`.json`-suffixed path holds decodable contents, the load succeeds.  Both
modules behave this way. -/
theorem C2_load_fallback_policy {T E T2 J PE DE EE : Type} (c : serde.Codec T E)
    (c2 : rustc_serialize.Codec T2 J PE DE EE) (fs : FS) (p : Path)
    (f : Bytes) (s : Str) (t : T) (k : IoErrorKind) :
    (fs.openRes p = .found f →
      serde.load c fs p = serde.afterOpen c f ∧
      rustc_serialize.load c2 fs p = rustc_serialize.afterOpen c2 f) ∧
    (fs.openRes p = .failure .notFound →
      fs.openRes (withExtension p jsonExt) = .found f →
      serde.load c fs p = serde.afterOpen c f ∧
      rustc_serialize.load c2 fs p = rustc_serialize.afterOpen c2 f) ∧
    (fs.openRes p = .failure k → k ≠ .notFound →
      serde.load c fs p = .err (.Io k) ∧
      rustc_serialize.load c2 fs p = .err (.Io k)) ∧
    (fs.openRes p = .failure .notFound →
      fs.openRes (withExtension p jsonExt) = .failure k →
      serde.load c fs p = .err (.Io k) ∧
      rustc_serialize.load c2 fs p = .err (.Io k)) ∧
    (fs.openRes p = .failure .notFound →
      fs.openRes (withExtension p jsonExt) = .found f →
      utf8Decode f = some s → c.from_str s = .ok t →
      serde.load c fs p = .ok t) := by
  refine ⟨fun h => ?_, fun h1 h2 => ?_, fun h hk => ?_, fun h1 h2 => ?_,
    fun h1 h2 hu hp => ?_⟩
  · exact ⟨serde.load_of_openChosen c fs p f (serde.openChosen_found fs p f h),
      rustc_serialize.rload_of_openChosen c2 fs p f (serde.openChosen_found fs p f h)⟩
  · exact ⟨serde.load_of_openChosen c fs p f
        (serde.openChosen_fallback_found fs p f h1 h2),
      rustc_serialize.rload_of_openChosen c2 fs p f
        (serde.openChosen_fallback_found fs p f h1 h2)⟩
  · exact ⟨serde.load_err_of_openChosen c fs p k (serde.openChosen_other fs p k h hk),
      rustc_serialize.rload_err_of_openChosen c2 fs p k
        (serde.openChosen_other fs p k h hk)⟩
  · exact ⟨serde.load_err_of_openChosen c fs p k
        (serde.openChosen_fallback_failure fs p k h1 h2),
      rustc_serialize.rload_err_of_openChosen c2 fs p k
        (serde.openChosen_fallback_failure fs p k h1 h2)⟩
  · rw [serde.load_of_openChosen c fs p f (serde.openChosen_fallback_found fs p f h1 h2)]
    exact serde.afterOpen_ok c f s t hu hp

/-- Witness for C2: `data` does not exist but `data.json` holds the text
`2`, so `load("data")` succeeds with `2`. -/
theorem C2_witness : serde.load toySerde fsOnlyJson dataPath = .ok 2 :=
  (C2_load_fallback_policy toySerde toyRustc fsOnlyJson dataPath [50] [50] 2
    .other).2.2.2.2 rfl rfl rfl rfl

/-- C3 counterexample: the serde module's error type does not distinguish
five failure origins as separate cases.  A parse failure (`{invalid`), a
shape failure (`[1]`), and an encode failure (the value `0`) are all
reported through the single `Json` case (constructor index 2), and the
rustc-serialize module reports a UTF-8 failure as no error case at all —
it panics. -/
theorem C3_counterexample :
    serde.load toySerde fsParseBad dataPath = .err (serde.Error.Json 1) ∧
    serde.load toySerde fsShapeBad dataPath = .err (serde.Error.Json 2) ∧
    (serde.save toySerde fsEmpty dataPath 0).1 = .err (serde.Error.Json 0) ∧
    serde.errCase (serde.Error.Json 1 : serde.Error Nat) =
      serde.errCase (serde.Error.Json 2 : serde.Error Nat) ∧
    serde.errCase (serde.Error.Json 2 : serde.Error Nat) =
      serde.errCase (serde.Error.Json 0 : serde.Error Nat) ∧
    rustc_serialize.load toyRustc fsBadUtf8 dataPath = .panic :=
  ⟨rfl, rfl, rfl, rfl, rfl, rfl⟩

/-- C3 (amended): each module's error type is a single tagged union, and
every failure of `load` and `save` is reported as one of its cases, per
stage: in the serde module (three cases) open failures are `Io`, UTF-8
failures are `Utf8`, and parse, decode, and encode failures are all the
one `Json` case; in the rustc-serialize module (four cases) open failures
are `Io`, parse, decode, and encode failures are `JsonParserError`,
`JsonDecoderError`, and `JsonEncoderError`, and a UTF-8 failure is not an
error case — the call panics. -/
theorem C3_error_taxonomy {T E T2 J PE DE EE : Type} (c : serde.Codec T E)
    (c2 : rustc_serialize.Codec T2 J PE DE EE) (fs : FS) (p : Path)
    (f : Bytes) (s : Str) (k : IoErrorKind) (e : E) (v : T)
    (pe : PE) (de : DE) (ee : EE) (j : J) (v2 : T2) :
    (serde.openChosen fs p = .error k → serde.load c fs p = .err (.Io k)) ∧
    (serde.openChosen fs p = .ok f → utf8Decode f = none →
      serde.load c fs p = .err .Utf8) ∧
    (serde.openChosen fs p = .ok f → utf8Decode f = some s →
      c.from_str s = .error e → serde.load c fs p = .err (.Json e)) ∧
    (c.to_string v = .error e → (serde.save c fs p v).1 = .err (.Json e)) ∧
    (rustc_serialize.openChosen fs p = .error k →
      rustc_serialize.load c2 fs p = .err (.Io k)) ∧
    (rustc_serialize.openChosen fs p = .ok f → utf8Decode f = none →
      rustc_serialize.load c2 fs p = .panic) ∧
    (rustc_serialize.openChosen fs p = .ok f → utf8Decode f = some s →
      c2.from_str s = .error pe →
      rustc_serialize.load c2 fs p = .err (.JsonParserError pe)) ∧
    (rustc_serialize.openChosen fs p = .ok f → utf8Decode f = some s →
      c2.from_str s = .ok j → c2.decode j = .error de →
      rustc_serialize.load c2 fs p = .err (.JsonDecoderError de)) ∧
    (c2.encode v2 = .error ee →
      (rustc_serialize.save c2 fs p v2).1 = .err (.JsonEncoderError ee)) := by
  refine ⟨fun h => serde.load_err_of_openChosen c fs p k h,
    fun h hu => ?_, fun h hu hp => ?_,
    fun h => by rw [serde.save_encode_err c fs p v e h],
    fun h => rustc_serialize.rload_err_of_openChosen c2 fs p k h,
    fun h hu => ?_, fun h hu hp => ?_, fun h hu hp hd => ?_,
    fun h => by rw [rustc_serialize.rsave_encode_err c2 fs p v2 ee h]⟩
  · rw [serde.load_of_openChosen c fs p f h]
    exact serde.afterOpen_utf8_err c f hu
  · rw [serde.load_of_openChosen c fs p f h]
    exact serde.afterOpen_json_err c f s e hu hp
  · rw [rustc_serialize.rload_of_openChosen c2 fs p f h]
    exact rustc_serialize.afterOpen_utf8_panic c2 f hu
  · rw [rustc_serialize.rload_of_openChosen c2 fs p f h]
    exact rustc_serialize.afterOpen_parse_err c2 f s pe hu hp
  · rw [rustc_serialize.rload_of_openChosen c2 fs p f h]
    exact rustc_serialize.afterOpen_decode_err c2 f s j de hu hp hd

/-- Witness for C3 (amended): a file holding the invalid UTF-8 byte
`0xFF` makes the serde load fail with the `Utf8` case. -/
theorem C3_witness : serde.load toySerde fsBadUtf8 dataPath = .err .Utf8 :=
  (C3_error_taxonomy toySerde toyRustc fsBadUtf8 dataPath [255] [] .other 0 5 11 21 31
    ToyJson.arr 5).2.1 rfl rfl

/-- C4 counterexample: in the serde module a malformed-JSON failure
(`{invalid`) and a shape failure (`[1]`) are both reported through the
same case of the returned error type — the single `Json` constructor —
so they are not distinct cases. -/
theorem C4_counterexample :
    serde.load toySerde fsParseBad dataPath = .err (serde.Error.Json 1) ∧
    serde.load toySerde fsShapeBad dataPath = .err (serde.Error.Json 2) ∧
    serde.errCase (serde.Error.Json 1 : serde.Error Nat) =
      serde.errCase (serde.Error.Json 2 : serde.Error Nat) :=
  ⟨rfl, rfl, rfl⟩

/-- C4 (amended): in the rustc-serialize module a parse failure and a
decode (shape) failure are reported as the distinct cases
`JsonParserError` and `JsonDecoderError` of the error union; in the serde
module both are reported through the single `Json` case (the distinction
survives only in the opaque `serde_json` payload, not as a case of the
library's error type). -/
theorem C4_parse_decode_cases {T E T2 J PE DE EE : Type} (c : serde.Codec T E)
    (c2 : rustc_serialize.Codec T2 J PE DE EE) (fs : FS) (p : Path)
    (f : Bytes) (s : Str) (e : E) (pe : PE) (de : DE) (j : J) :
    (serde.openChosen fs p = .ok f → utf8Decode f = some s →
      c.from_str s = .error e → serde.load c fs p = .err (.Json e)) ∧
    (rustc_serialize.openChosen fs p = .ok f → utf8Decode f = some s →
      c2.from_str s = .error pe →
      rustc_serialize.load c2 fs p = .err (.JsonParserError pe)) ∧
    (rustc_serialize.openChosen fs p = .ok f → utf8Decode f = some s →
      c2.from_str s = .ok j → c2.decode j = .error de →
      rustc_serialize.load c2 fs p = .err (.JsonDecoderError de)) ∧
    (∀ (x : PE) (y : DE),
      (rustc_serialize.Error.JsonParserError x : rustc_serialize.Error PE DE EE) ≠
        rustc_serialize.Error.JsonDecoderError y) ∧
    (∀ e1 e2 : E,
      serde.errCase (serde.Error.Json e1) = serde.errCase (serde.Error.Json e2)) := by
  refine ⟨fun h hu hp => ?_, fun h hu hp => ?_, fun h hu hp hd => ?_,
    fun x y => by simp, fun e1 e2 => rfl⟩
  · rw [serde.load_of_openChosen c fs p f h]
    exact serde.afterOpen_json_err c f s e hu hp
  · rw [rustc_serialize.rload_of_openChosen c2 fs p f h]
    exact rustc_serialize.afterOpen_parse_err c2 f s pe hu hp
  · rw [rustc_serialize.rload_of_openChosen c2 fs p f h]
    exact rustc_serialize.afterOpen_decode_err c2 f s j de hu hp hd

/-- Witness for C4 (amended): in the rustc-serialize module `{invalid`
gives a `JsonParserError` and `[1]` gives a `JsonDecoderError`. -/
theorem C4_witness :
    rustc_serialize.load toyRustc fsParseBad dataPath = .err (.JsonParserError 11) ∧
    rustc_serialize.load toyRustc fsShapeBad dataPath = .err (.JsonDecoderError 21) :=
  ⟨(C4_parse_decode_cases toySerde toyRustc fsParseBad dataPath
      [123, 105, 110, 118, 97, 108, 105, 100] [123, 105, 110, 118, 97, 108, 105, 100]
      1 11 21 ToyJson.arr).2.1 rfl rfl rfl,
   (C4_parse_decode_cases toySerde toyRustc fsShapeBad dataPath
      [91, 49, 93] [91, 49, 93] 2 11 21 ToyJson.arr).2.2.1 rfl rfl rfl rfl⟩

/-- C5 counterexample: `rustc_serialize::load` applied to a file whose
bytes are not valid UTF-8 does not return a typed failure — it panics
(the `.unwrap()` on `std::str::from_utf8` at line 199 aborts). -/
theorem C5_counterexample : rustc_serialize.load toyRustc fsBadUtf8 dataPath = .panic :=
  rfl

/-- C5 (amended): the serde module's `load` and `save` and the
rustc-serialize module's `save` never abort — every failure is returned
as an error value (for non-UTF-8 bytes, serde's `load` returns the `Utf8`
case); but `rustc_serialize::load` aborts (panics) exactly when the file
it opened holds bytes that are not valid UTF-8. -/
theorem C5_failure_outcomes {T E T2 J PE DE EE : Type} (c : serde.Codec T E)
    (c2 : rustc_serialize.Codec T2 J PE DE EE) (fs : FS) (p : Path) (v : T) (v2 : T2) :
    serde.load c fs p ≠ .panic ∧
    (serde.save c fs p v).1 ≠ .panic ∧
    (rustc_serialize.save c2 fs p v2).1 ≠ .panic ∧
    (rustc_serialize.load c2 fs p = .panic ↔
      ∃ f, rustc_serialize.openChosen fs p = .ok f ∧ utf8Decode f = none) := by
  refine ⟨?_, ?_, ?_, ?_⟩
  · cases ho : serde.openChosen fs p with
    | error k => rw [serde.load_err_of_openChosen c fs p k ho]; simp
    | ok f =>
      rw [serde.load_of_openChosen c fs p f ho]
      cases hu : utf8Decode f with
      | none => rw [serde.afterOpen_utf8_err c f hu]; simp
      | some s =>
        cases hp : c.from_str s with
        | error e => rw [serde.afterOpen_json_err c f s e hu hp]; simp
        | ok t => rw [serde.afterOpen_ok c f s t hu hp]; simp
  · cases he : c.to_string v with
    | error e => rw [serde.save_encode_err c fs p v e he]; simp
    | ok s =>
      cases hc : fs.createRes (withExtension p jsonExt) with
      | some k => rw [serde.save_create_err c fs p v s k he hc]; simp
      | none => rw [serde.save_ok c fs p v s he hc]; simp
  · cases he : c2.encode v2 with
    | error e => rw [rustc_serialize.rsave_encode_err c2 fs p v2 e he]; simp
    | ok s =>
      cases hc : fs.createRes (withExtension p jsonExt) with
      | some k => rw [rustc_serialize.rsave_create_err c2 fs p v2 s k he hc]; simp
      | none => rw [rustc_serialize.rsave_ok c2 fs p v2 s he hc]; simp
  · constructor
    · intro hpan
      cases ho : rustc_serialize.openChosen fs p with
      | error k =>
        rw [rustc_serialize.rload_err_of_openChosen c2 fs p k ho] at hpan
        exact absurd hpan (by simp)
      | ok f =>
        refine ⟨f, rfl, ?_⟩
        rw [rustc_serialize.rload_of_openChosen c2 fs p f ho] at hpan
        cases hu : utf8Decode f with
        | none => rfl
        | some s =>
          exfalso
          cases hp : c2.from_str s with
          | error e =>
            rw [rustc_serialize.afterOpen_parse_err c2 f s e hu hp] at hpan
            exact absurd hpan (by simp)
          | ok j =>
            cases hd : c2.decode j with
            | error e =>
              rw [rustc_serialize.afterOpen_decode_err c2 f s j e hu hp hd] at hpan
              exact absurd hpan (by simp)
            | ok t =>
              rw [rustc_serialize.rafterOpen_ok c2 f s j t hu hp hd] at hpan
              exact absurd hpan (by simp)
    · rintro ⟨f, ho, hu⟩
      rw [rustc_serialize.rload_of_openChosen c2 fs p f ho]
      exact rustc_serialize.afterOpen_utf8_panic c2 f hu

/-- Witness for C5 (amended): the serde load on the invalid-UTF-8 file
does not panic. -/
theorem C5_witness : serde.load toySerde fsBadUtf8 dataPath ≠ .panic :=
  (C5_failure_outcomes toySerde toyRustc fsBadUtf8 dataPath 0 0).1

/-- C6: Extension normalization on save — when encoding succeeds and
file creation succeeds, `save` writes the full encoded text (as UTF-8
bytes) to the given path with its extension forced to `.json`, creating
or truncating that file; in particular `save("data", v)` and
`save("data.json", v)` are the same operation.  Both modules behave this
way. -/
theorem C6_save_normalizes_extension {T E T2 J PE DE EE : Type} (c : serde.Codec T E)
    (c2 : rustc_serialize.Codec T2 J PE DE EE) (fs : FS) (p : Path)
    (v : T) (v2 : T2) (s s2 : Str) :
    (c.to_string v = .ok s → fs.createRes (withExtension p jsonExt) = none →
      serde.save c fs p v =
        (.ok (), fs.write (withExtension p jsonExt) (utf8Encode s))) ∧
    (c2.encode v2 = .ok s2 → fs.createRes (withExtension p jsonExt) = none →
      rustc_serialize.save c2 fs p v2 =
        (.ok (), fs.write (withExtension p jsonExt) (utf8Encode s2))) ∧
    serde.save c fs dataPath v = serde.save c fs dataJsonPath v ∧
    rustc_serialize.save c2 fs dataPath v2 = rustc_serialize.save c2 fs dataJsonPath v2 := by
  refine ⟨fun h hc => serde.save_ok c fs p v s h hc,
    fun h hc => rustc_serialize.rsave_ok c2 fs p v2 s2 h hc, ?_, ?_⟩
  · unfold serde.save
    rw [show withExtension dataPath jsonExt = withExtension dataJsonPath jsonExt from
      by decide]
  · unfold rustc_serialize.save
    rw [show withExtension dataPath jsonExt = withExtension dataJsonPath jsonExt from
      by decide]

/-- Witness for C6: saving `5` at `data` writes the encoded text to the
`.json`-normalized path. -/
theorem C6_witness :
    serde.save toySerde fsEmpty dataPath 5 =
      (.ok (), fsEmpty.write (withExtension dataPath jsonExt) (utf8Encode [53])) :=
  (C6_save_normalizes_extension toySerde toyRustc fsEmpty dataPath 5 5 [53] [53]).1
    rfl rfl

/-- C7: Non-existent-file error — when neither the exact path nor the
`.json`-suffixed path exists, `load` fails with the I/O not-found case
(not a parse error), in both modules. -/
theorem C7_missing_both {T E T2 J PE DE EE : Type} (c : serde.Codec T E)
    (c2 : rustc_serialize.Codec T2 J PE DE EE) (fs : FS) (p : Path)
    (h1 : fs.openRes p = .failure .notFound)
    (h2 : fs.openRes (withExtension p jsonExt) = .failure .notFound) :
    serde.load c fs p = .err (.Io .notFound) ∧
    rustc_serialize.load c2 fs p = .err (.Io .notFound) :=
  ⟨serde.load_err_of_openChosen c fs p _ (serde.openChosen_fallback_failure fs p _ h1 h2),
   rustc_serialize.rload_err_of_openChosen c2 fs p _
     (serde.openChosen_fallback_failure fs p _ h1 h2)⟩

/-- Witness for C7: loading `missing` on the empty filesystem fails with
the not-found I/O case. -/
theorem C7_witness : serde.load toySerde fsEmpty missingPath = .err (.Io .notFound) :=
  (C7_missing_both toySerde toyRustc fsEmpty missingPath rfl rfl).1

/-- C8 counterexample: the two load implementations do not differ in path
resolution.  When both `data` (text `1`) and `data.json` (text `2`)
exist, both modules' loads read the exact path `data` and return `1` — so
neither one "unconditionally forces the `.json` extension before any open
attempt" — and when only `data.json` exists, both fall back to it and
return `2`. -/
theorem C8_counterexample :
    serde.load toySerde fsBoth dataPath = .ok 1 ∧
    rustc_serialize.load toyRustc fsBoth dataPath = .ok 1 ∧
    serde.load toySerde fsOnlyJson dataPath = .ok 2 ∧
    rustc_serialize.load toyRustc fsOnlyJson dataPath = .ok 2 :=
  ⟨rfl, rfl, rfl, rfl⟩

/-- C8 (amended): the two load implementations realize the same
path-resolution policy.  Their open logic is the same function
(exact path first, `.json` fallback exactly on not-found), and each load
factors as that shared open logic followed by its own read pipeline. -/
theorem C8_single_resolution_policy {T E T2 J PE DE EE : Type} (c : serde.Codec T E)
    (c2 : rustc_serialize.Codec T2 J PE DE EE) (fs : FS) (p : Path) :
    rustc_serialize.openChosen fs p = serde.openChosen fs p ∧
    serde.load c fs p =
      (match serde.openChosen fs p with
        | .error k => .err (.Io k)
        | .ok contents => serde.afterOpen c contents) ∧
    rustc_serialize.load c2 fs p =
      (match serde.openChosen fs p with
        | .error k => .err (.Io k)
        | .ok contents => rustc_serialize.afterOpen c2 contents) :=
  ⟨rfl, rfl, rfl⟩

/-- C9: Atomicity of save on encode failure — both saves encode before
touching the filesystem, so when encoding fails the encode error is
returned and the filesystem value is returned unchanged. -/
theorem C9_encode_failure_leaves_fs {T E T2 J PE DE EE : Type} (c : serde.Codec T E)
    (c2 : rustc_serialize.Codec T2 J PE DE EE) (fs : FS) (p : Path)
    (v : T) (v2 : T2) (e : E) (ee : EE)
    (h : c.to_string v = .error e) (h2 : c2.encode v2 = .error ee) :
    serde.save c fs p v = (.err (.Json e), fs) ∧
    rustc_serialize.save c2 fs p v2 = (.err (.JsonEncoderError ee), fs) :=
  ⟨serde.save_encode_err c fs p v e h,
   rustc_serialize.rsave_encode_err c2 fs p v2 ee h2⟩

/-- Witness for C9: saving the unencodable value `0` returns the encode
error and the empty filesystem unchanged. -/
theorem C9_witness : serde.save toySerde fsEmpty dataPath 0 = (.err (.Json 0), fsEmpty) :=
  (C9_encode_failure_leaves_fs toySerde toyRustc fsEmpty dataPath 0 0 0 31 rfl rfl).1

/-- C10: Extension replacement, not appending — on a name `stem.ext`
(nonempty stem, no dot in the extension) the normalized path is
`stem.json`, which is not `stem.ext.json`; and the loads' not-found
fallback opens `stem.json`. -/
theorem C10_extension_replaced {T E T2 J PE DE EE : Type} (c : serde.Codec T E)
    (c2 : rustc_serialize.Codec T2 J PE DE EE) (fs : FS) (stem ext : Str) (f : Bytes)
    (hstem : stem ≠ []) (hext : dotChar ∉ ext) :
    withExtension (stem ++ dotChar :: ext) jsonExt = stem ++ dotChar :: jsonExt ∧
    withExtension (stem ++ dotChar :: ext) jsonExt ≠
      (stem ++ dotChar :: ext) ++ dotChar :: jsonExt ∧
    (fs.openRes (stem ++ dotChar :: ext) = .failure .notFound →
      fs.openRes (stem ++ dotChar :: jsonExt) = .found f →
      serde.load c fs (stem ++ dotChar :: ext) = serde.afterOpen c f ∧
      rustc_serialize.load c2 fs (stem ++ dotChar :: ext) =
        rustc_serialize.afterOpen c2 f) := by
  have hwe := withExtension_replace stem ext jsonExt hstem hext
  refine ⟨hwe, ?_, fun h1 h2 => ?_⟩
  · rw [hwe]
    intro heq
    have hlen := congrArg List.length heq
    simp only [List.length_append, List.length_cons] at hlen
    omega
  · have hopen : serde.openChosen fs (stem ++ dotChar :: ext) = .ok f :=
      serde.openChosen_fallback_found fs _ f h1 (by rw [hwe]; exact h2)
    exact ⟨serde.load_of_openChosen c fs _ f hopen,
      rustc_serialize.rload_of_openChosen c2 fs _ f hopen⟩

/-- Witness for C10: `data.txt` normalizes to `data.json` (not
`data.txt.json`), and loading the missing `data.txt` falls back to
`data.json` and succeeds. -/
theorem C10_witness :
    withExtension dataTxtPath jsonExt = dataJsonPath ∧
    serde.load toySerde fsOnlyJson dataTxtPath = .ok 2 := by
  have H := C10_extension_replaced toySerde toyRustc fsOnlyJson [100, 97, 116, 97]
    [116, 120, 116] [50] (by decide) (by decide)
  exact ⟨H.1, ((H.2.2 rfl rfl).1).trans rfl⟩

end JsonIo
